import Mathlib

/-!
Verification of the duty-cycle orchestrator in `chapter6/main.py` of the
micropython-tutorial repository.

The program is embedded shallowly as trace-producing functions.  Side effects
(pin reads, sensor measurement, display rendering, network traffic, blinking,
sleeping) are recorded as events in a trace; external outcomes (sensor
success/failure, I2C scan result, wifi association polling, HTTP response) are
supplied by an environment record.  The two unbounded loops of the source (the
wifi association wait and the continuous-run loop) are given explicit fuel;
running out of fuel yields `none`, modelling a run that has not terminated
within that many iterations.

Blink delays are recorded in hundredths of a second (the source uses 0.05 s
for "quick" and 0.5 s for "slow" blinks, i.e. 5 and 50 here); sleeps are
recorded in whole seconds, as in the source.
-/

namespace Chapter6

/-- Trace events of the orchestrator.  `blink d t` records a call
`blink_led(delay=d/100, times=t)`; its pin-level meaning is `blink_led` below. -/
inductive Event where
  | cycleBegin
  | cycleEnd
  | readCloudPin
  | readDebugPin
  | measure
  | render (plain : Bool)
  | sleepSec (s : Nat)
  | displayPoweroff
  | wifiActivate
  | blink (delayCs : Nat) (times : Nat)
  | httpReport
  | rtcAlarm (ms : Nat)
  | deepSleepEnter
  deriving Repr, DecidableEq

/-- Pin-level commands issued by `blink_led`: driving the LED pin to a level
(`set true` is the electrical high produced by `led_top.on()`) and holding the
current level for a delay (hundredths of a second). -/
inductive PinEvent where
  | set (level : Bool)
  | wait (delayCs : Nat)
  deriving Repr, DecidableEq

/-- The configuration module `config.py` (the fields the orchestrator reads). -/
structure Config where
  DEEP_SLEEP : Bool
  LOG_INTERVAL : Nat
  FAHRENHEIT : Bool
  deriving Repr, DecidableEq

/-- External world supplying the outcomes of all collaborator calls.
Pin reads are streams indexed by read count, so that a toggle changing between
reads is expressible; `measureResult = none` models the DHT22 raising;
`httpResponse = none` models a transport error of `urequests.get`, `some c` a
response with status code `c`; `staConnected j` is the result of the `j`-th
`sta_if.isconnected()` poll. -/
structure Env where
  cloudPinVal : Nat → Nat
  debugPinVal : Nat → Nat
  measureResult : Option (ℚ × ℚ)
  i2cScan : List Nat
  staConnected : Nat → Bool
  httpResponse : Option Nat

/-- Result of a fallible step: the events it emitted and, when it raised, the
exception message. -/
structure StepResult where
  trace : List Event
  err : Option String
  deriving Repr, DecidableEq

/-- Loop body of `blink_led`: each iteration turns the pin on, waits `delayCs`,
turns it off, waits `delayCs` again. -/
def blink_led_loop (delayCs : Nat) : Nat → List PinEvent
  | 0 => []
  | n + 1 =>
      [PinEvent.set true, PinEvent.wait delayCs,
       PinEvent.set false, PinEvent.wait delayCs] ++ blink_led_loop delayCs n

/-- `blink_led(delay, times)`: blink `times` times with the given delay, then
finish with `led_top.on()`, the steady pin-high state. -/
def blink_led (delayCs : Nat) (times : Nat) : List PinEvent :=
  blink_led_loop delayCs times ++ [PinEvent.set true]

/-- `show_wifi_connect_wait()`: one quick blink. -/
def show_wifi_connect_wait : List Event := [Event.blink 5 1]

/-- `show_wifi_connect_success()`: three quick blinks. -/
def show_wifi_connect_success : List Event := [Event.blink 5 3]

/-- `show_success()`: one slow blink. -/
def show_success : List Event := [Event.blink 50 1]

/-- `show_error()`: three slow blinks. -/
def show_error : List Event := [Event.blink 50 3]

/-- `read_boolean_pin(pin)`: true exactly when the pulled-up pin reads 0 (GND). -/
def read_boolean_pin (v : Nat) : Bool := v == 0

/-- `is_debug()`: the `k`-th read of the DEBUG pin. -/
def is_debug (env : Env) (k : Nat) : Bool := read_boolean_pin (env.debugPinVal k)

/-- `should_send_data_to_cloud()`: the `k`-th read of the SEND_DATA_TO_CLOUD pin. -/
def should_send_data_to_cloud (env : Env) (k : Nat) : Bool :=
  read_boolean_pin (env.cloudPinVal k)

/-- `get_temperature_and_humidity()`: measure via the DHT22 (fails when the
sensor raises), then convert the temperature to Fahrenheit when configured. -/
def get_temperature_and_humidity (env : Env) (cfg : Config) : Option (ℚ × ℚ) :=
  env.measureResult.map fun th =>
    (if cfg.FAHRENHEIT then th.1 * 9 / 5 + 32 else th.1, th.2)

/-- `display_temperature_and_humidity(t, h, use_normal_text)`: raise when the
display (I2C address 60) is not in the bus scan; otherwise render (plain
built-in font when `use_normal_text`, custom vector font otherwise), hold the
display visible for 10 seconds, and power it off. -/
def display_temperature_and_humidity (env : Env) (temperature humidity : ℚ)
    (use_normal_text : Bool) : StepResult :=
  if (60 : Nat) ∈ env.i2cScan then
    { trace := [Event.render use_normal_text, Event.sleepSec 10, Event.displayPoweroff],
      err := none }
  else
    { trace := [], err := some "Cannot find display" }

/-- The `while not sta_if.isconnected()` wait loop of `connect_wifi`, polling
from index `k` with the given fuel: each iteration whose poll is false emits a
quick progress blink and sleeps one second. -/
def wifi_wait (connected : Nat → Bool) (k : Nat) : Nat → Option (List Event)
  | 0 => none
  | fuel + 1 =>
      if connected k then some []
      else (wifi_wait connected (k + 1) fuel).map
        (fun t => show_wifi_connect_wait ++ Event.sleepSec 1 :: t)

/-- `connect_wifi()`: if the station interface is already connected, only the
quick success pattern is emitted; otherwise activate the interface, run the
polling wait loop, then emit the quick success pattern. -/
def connect_wifi (env : Env) (fuel : Nat) : Option (List Event) :=
  if env.staConnected 0 then some show_wifi_connect_success
  else
    (wifi_wait env.staConnected 1 fuel).map
      (fun t => Event.wifiActivate :: (t ++ show_wifi_connect_success))

/-- `log_data(t, h)`: issue the webhook GET; a status code below 400 is
success (one slow success blink), 400 or above raises `RuntimeError`; a
transport failure of the GET itself also raises. -/
def log_data (env : Env) : StepResult :=
  match env.httpResponse with
  | none => { trace := [Event.httpReport], err := some "transport error" }
  | some code =>
      if code < 400 then { trace := Event.httpReport :: show_success, err := none }
      else { trace := [Event.httpReport], err := some "Upload failed!" }

/-- The `try` block of `run_cycle`: read the cloud toggle once (read index
`k`), acquire the reading, display it (plain style exactly when the cloud
toggle was on), and, when the toggle was on, connect wifi and report the
reading.  The first raising step aborts the rest; `none` models the wifi wait
not terminating within its fuel. -/
def run_cycle_try (env : Env) (cfg : Config) (k fuel : Nat) : Option StepResult :=
  let send_data_to_cloud := should_send_data_to_cloud env k
  let t0 := [Event.readCloudPin]
  match get_temperature_and_humidity env cfg with
  | none => some { trace := t0, err := some "measure failed" }
  | some (temperature, humidity) =>
      let t1 := t0 ++ [Event.measure]
      let d := display_temperature_and_humidity env temperature humidity send_data_to_cloud
      match d.err with
      | some e => some { trace := t1 ++ d.trace, err := some e }
      | none =>
          let t2 := t1 ++ d.trace
          if send_data_to_cloud then
            match connect_wifi env fuel with
            | none => none
            | some tw =>
                let l := log_data env
                some { trace := (t2 ++ tw) ++ l.trace, err := l.err }
          else some { trace := t2, err := none }

/-- `run_cycle()`: the try block above wrapped by the single per-cycle failure
boundary: any exception is caught, logged, and answered by the slow error
pattern; the cycle then always runs to its end marker. -/
def run_cycle (env : Env) (cfg : Config) (k fuel : Nat) : Option (List Event) :=
  (run_cycle_try env cfg k fuel).map fun r =>
    Event.cycleBegin ::
      (r.trace ++ (match r.err with | some _ => show_error | none => []) ++ [Event.cycleEnd])

/-- `deepsleep()`: program the RTC alarm for `LOG_INTERVAL` seconds (the source
passes `config.LOG_INTERVAL * 1000` ms) and enter deep sleep. -/
def deepsleep (cfg : Config) : List Event :=
  [Event.rtcAlarm (cfg.LOG_INTERVAL * 1000), Event.deepSleepEnter]

/-- The `while (not is_debug())` loop of `run`: the `k`-th boundary check reads
the DEBUG pin at index `k`; when it is asserted the loop exits before running
another cycle, otherwise one full cycle runs (cloud-pin read index `k`)
followed by a blocking sleep of `LOG_INTERVAL` seconds. -/
def run_loop (env : Env) (cfg : Config) (wfuel : Nat) (k : Nat) : Nat → Option (List Event)
  | 0 => none
  | lfuel + 1 =>
      if is_debug env k then some [Event.readDebugPin]
      else
        match run_cycle env cfg k wfuel with
        | none => none
        | some t =>
            (run_loop env cfg wfuel (k + 1) lfuel).map
              (fun rest => Event.readDebugPin :: (t ++ Event.sleepSec cfg.LOG_INTERVAL :: rest))

/-- `run()`: in DEEP_SLEEP mode run exactly one cycle, then check debug;
deep-sleep with the programmed wake alarm only when debug is not asserted.
Otherwise run the endless loop. -/
def run (env : Env) (cfg : Config) (wfuel lfuel : Nat) : Option (List Event) :=
  if cfg.DEEP_SLEEP then
    (run_cycle env cfg 0 wfuel).map fun t =>
      t ++ Event.readDebugPin :: (if is_debug env 0 then [] else deepsleep cfg)
  else run_loop env cfg wfuel 0 lfuel

/-- Number of occurrences of event `e` in a trace. -/
def countE (e : Event) : List Event → Nat
  | [] => 0
  | x :: t => (if x = e then 1 else 0) + countE e t

/-- Sub-list of rendering events of a trace. -/
def renderEvents (t : List Event) : List Event :=
  t.filter fun e => match e with | Event.render _ => true | _ => false

/-- Sub-list of wake-alarm-programming events of a trace. -/
def alarmEvents (t : List Event) : List Event :=
  t.filter fun e => match e with | Event.rtcAlarm _ => true | _ => false

/-- Characterisation, directly on the environment, of "some gated step of the
cycle raises": the sensor raises, or the display is absent from the I2C scan,
or (cloud reporting read enabled at index `k`) the upload suffers a transport
error or a status code of 400 or above. -/
def stepFailureB (env : Env) (k : Nat) : Bool :=
  env.measureResult.isNone
  || !(decide ((60 : Nat) ∈ env.i2cScan))
  || (should_send_data_to_cloud env k &&
        (match env.httpResponse with
         | none => true
         | some code => decide (400 ≤ code)))

/-- The claimed shape of `n` seconds of association waiting: one quick blink
then a one-second sleep, per second. -/
def waitBlinks : Nat → List Event
  | 0 => []
  | n + 1 => Event.blink 5 1 :: Event.sleepSec 1 :: waitBlinks n

/-- The claimed shape of a continuous-loop run that performs `n` full
iterations from boundary-check index `k` and then stops at the next boundary
check: each iteration is one debug-pin read, one complete cycle, and one
blocking sleep of `LOG_INTERVAL` seconds, and the run ends with the final
debug-pin read that observed the override asserted. -/
def loopTraceUpTo (env : Env) (cfg : Config) (wfuel : Nat) (k : Nat) : Nat → Option (List Event)
  | 0 => some [Event.readDebugPin]
  | n + 1 =>
      match run_cycle env cfg k wfuel, loopTraceUpTo env cfg wfuel (k + 1) n with
      | some t, some rest =>
          some (Event.readDebugPin :: (t ++ Event.sleepSec cfg.LOG_INTERVAL :: rest))
      | _, _ => none

/-- The shipped configuration of `config.py`. -/
def cfg0 : Config := { DEEP_SLEEP := false, LOG_INTERVAL := 10, FAHRENHEIT := false }

/-- `config.py` with `DEEP_SLEEP = True`. -/
def cfgDS : Config := { DEEP_SLEEP := true, LOG_INTERVAL := 10, FAHRENHEIT := false }

/-- A world in which both toggles are off (pins pulled high), the sensor reads
25 °C / 50 %, the display answers on the bus, wifi is already associated and
the webhook answers 200. -/
def env0 : Env :=
  { cloudPinVal := fun _ => 1, debugPinVal := fun _ => 1,
    measureResult := some (25, 50), i2cScan := [60],
    staConnected := fun _ => true, httpResponse := some 200 }

/-- A world in which the DHT22 raises during acquisition; everything else as in
`env0` but with cloud reporting enabled, so that a render and a report would
follow were acquisition to succeed. -/
def envMeasureFail : Env :=
  { env0 with cloudPinVal := fun _ => 0, measureResult := none }

/-- A world like `env0` whose debug override becomes asserted at the third
boundary check (reads 0 and 1 give "off", read 2 gives "on"). -/
def envLoop : Env := { env0 with debugPinVal := fun k => if k < 2 then 1 else 0 }

/-- A world like `env0` in which cloud reporting is enabled and wifi
association succeeds at the fifth poll (polls 0..3 observe "not connected"). -/
def envWifi : Env :=
  { env0 with cloudPinVal := fun _ => 0, staConnected := fun k => decide (3 < k) }

/-- Number of occurrences of a pin command in a pin-level trace. -/
def countPin (e : PinEvent) : List PinEvent → Nat
  | [] => 0
  | x :: t => (if x = e then 1 else 0) + countPin e t

theorem countE_nil (e : Event) : countE e [] = 0 := rfl

theorem countE_cons (e x : Event) (t : List Event) :
    countE e (x :: t) = (if x = e then 1 else 0) + countE e t := rfl

theorem countE_append (e : Event) (a b : List Event) :
    countE e (a ++ b) = countE e a + countE e b := by
  induction a with
  | nil => simp [countE]
  | cons x a ih => simp [countE, ih]; ring

theorem countE_eq_zero (e : Event) (t : List Event) (h : ∀ x ∈ t, x ≠ e) :
    countE e t = 0 := by
  induction t with
  | nil => rfl
  | cons x t ih =>
      rw [countE_cons, if_neg (h x (List.mem_cons_self x t)), ih]
      intro y hy
      exact h y (List.mem_cons_of_mem x hy)

/-- Every event of the wifi wait loop is a quick progress blink or a one-second
sleep. -/
theorem wifi_wait_mem (c : Nat → Bool) (k fuel : Nat) (t : List Event)
    (h : wifi_wait c k fuel = some t) :
    ∀ e ∈ t, e = Event.blink 5 1 ∨ e = Event.sleepSec 1 := by
  induction fuel generalizing k t with
  | zero => simp [wifi_wait] at h
  | succ n ih =>
      rw [wifi_wait] at h
      by_cases hc : c k
      · rw [if_pos hc] at h
        cases h
        intro e he
        cases he
      · rw [if_neg hc] at h
        cases hw : wifi_wait c (k + 1) n with
        | none => rw [hw] at h; cases h
        | some t0 =>
            rw [hw] at h
            cases h
            intro e he
            simp only [show_wifi_connect_wait, List.cons_append, List.nil_append,
              List.mem_cons] at he
            rcases he with rfl | rfl | he
            · exact Or.inl rfl
            · exact Or.inr rfl
            · exact ih (k + 1) t0 hw e he

/-- Every event emitted by `connect_wifi` is a quick blink, a one-second
sleep, or the interface activation. -/
theorem connect_wifi_mem (env : Env) (fuel : Nat) (t : List Event)
    (h : connect_wifi env fuel = some t) :
    ∀ e ∈ t, e = Event.blink 5 1 ∨ e = Event.sleepSec 1 ∨
      e = Event.wifiActivate ∨ e = Event.blink 5 3 := by
  rw [connect_wifi] at h
  by_cases hc : env.staConnected 0
  · rw [if_pos hc] at h
    cases h
    intro e he
    simp only [show_wifi_connect_success, List.mem_singleton] at he
    exact Or.inr (Or.inr (Or.inr he))
  · rw [if_neg hc] at h
    cases hw : wifi_wait env.staConnected 1 fuel with
    | none => rw [hw] at h; cases h
    | some t0 =>
        rw [hw] at h
        cases h
        intro e he
        simp only [List.mem_cons, List.mem_append, show_wifi_connect_success,
          List.mem_singleton] at he
        rcases he with rfl | he | rfl | he0
        · exact Or.inr (Or.inr (Or.inl rfl))
        · rcases wifi_wait_mem env.staConnected 1 fuel t0 hw e he with h1 | h1
          · exact Or.inl h1
          · exact Or.inr (Or.inl h1)
        · exact Or.inr (Or.inr (Or.inr rfl))
        · cases he0

/-- A trace of `connect_wifi` contains no occurrence of any event other than
the quick blinks, the one-second sleeps and the interface activation. -/
theorem connect_wifi_countE (env : Env) (fuel : Nat) (t : List Event) (e : Event)
    (h : connect_wifi env fuel = some t)
    (h1 : e ≠ Event.blink 5 1) (h2 : e ≠ Event.sleepSec 1)
    (h3 : e ≠ Event.wifiActivate) (h4 : e ≠ Event.blink 5 3) :
    countE e t = 0 := by
  refine countE_eq_zero e t fun x hx hxe => ?_
  rcases connect_wifi_mem env fuel t h x hx with rfl | rfl | rfl | rfl
  · exact h1 hxe.symm
  · exact h2 hxe.symm
  · exact h3 hxe.symm
  · exact h4 hxe.symm

/-- Exhaustive description of the traces `run_cycle` can produce, by the case
of the environment that produced them. -/
theorem run_cycle_shape (env : Env) (cfg : Config) (k fuel : Nat) (tr : List Event)
    (h : run_cycle env cfg k fuel = some tr) :
    (env.measureResult = none ∧
       tr = [Event.cycleBegin, Event.readCloudPin] ++ show_error ++ [Event.cycleEnd]) ∨
    (env.measureResult ≠ none ∧ (60 : Nat) ∉ env.i2cScan ∧
       tr = [Event.cycleBegin, Event.readCloudPin, Event.measure] ++ show_error
              ++ [Event.cycleEnd]) ∨
    (env.measureResult ≠ none ∧ (60 : Nat) ∈ env.i2cScan ∧
       should_send_data_to_cloud env k = false ∧
       tr = [Event.cycleBegin, Event.readCloudPin, Event.measure, Event.render false,
             Event.sleepSec 10, Event.displayPoweroff, Event.cycleEnd]) ∨
    (∃ tw, env.measureResult ≠ none ∧ (60 : Nat) ∈ env.i2cScan ∧
       should_send_data_to_cloud env k = true ∧
       connect_wifi env fuel = some tw ∧
       ((env.httpResponse = none ∧
           tr = [Event.cycleBegin, Event.readCloudPin, Event.measure, Event.render true,
                 Event.sleepSec 10, Event.displayPoweroff]
                  ++ tw ++ [Event.httpReport] ++ show_error ++ [Event.cycleEnd]) ∨
        (∃ c, env.httpResponse = some c ∧ 400 ≤ c ∧
           tr = [Event.cycleBegin, Event.readCloudPin, Event.measure, Event.render true,
                 Event.sleepSec 10, Event.displayPoweroff]
                  ++ tw ++ [Event.httpReport] ++ show_error ++ [Event.cycleEnd]) ∨
        (∃ c, env.httpResponse = some c ∧ c < 400 ∧
           tr = [Event.cycleBegin, Event.readCloudPin, Event.measure, Event.render true,
                 Event.sleepSec 10, Event.displayPoweroff]
                  ++ tw ++ [Event.httpReport] ++ show_success ++ [Event.cycleEnd]))) := by
  cases hm : env.measureResult with
  | none =>
      left
      refine ⟨rfl, ?_⟩
      have hx : run_cycle env cfg k fuel =
          some (Event.cycleBegin :: Event.readCloudPin :: show_error ++ [Event.cycleEnd]) := by
        simp [run_cycle, run_cycle_try, get_temperature_and_humidity, hm]
      have := Option.some.inj (hx.symm.trans h)
      simp [← this]
  | some th =>
      by_cases hscan : (60 : Nat) ∈ env.i2cScan
      · cases hs : should_send_data_to_cloud env k with
        | false =>
            right; right; left
            refine ⟨by simp [hm], hscan, rfl, ?_⟩
            have hx : run_cycle env cfg k fuel =
                some [Event.cycleBegin, Event.readCloudPin, Event.measure, Event.render false,
                      Event.sleepSec 10, Event.displayPoweroff, Event.cycleEnd] := by
              simp [run_cycle, run_cycle_try, get_temperature_and_humidity, hm,
                display_temperature_and_humidity, hscan, hs]
            exact (Option.some.inj (hx.symm.trans h)).symm
        | true =>
            cases hconn : connect_wifi env fuel with
            | none =>
                exfalso
                have hx : run_cycle env cfg k fuel = none := by
                  simp [run_cycle, run_cycle_try, get_temperature_and_humidity, hm,
                    display_temperature_and_humidity, hscan, hs, hconn]
                rw [hx] at h
                cases h
            | some tw =>
                right; right; right
                refine ⟨tw, by simp [hm], hscan, rfl, rfl, ?_⟩
                cases hr : env.httpResponse with
                | none =>
                    left
                    refine ⟨rfl, ?_⟩
                    have hx : run_cycle env cfg k fuel =
                        some ([Event.cycleBegin, Event.readCloudPin, Event.measure,
                               Event.render true, Event.sleepSec 10, Event.displayPoweroff]
                                ++ tw ++ [Event.httpReport] ++ show_error
                                ++ [Event.cycleEnd]) := by
                      simp [run_cycle, run_cycle_try, get_temperature_and_humidity, hm,
                        display_temperature_and_humidity, hscan, hs, hconn, log_data, hr]
                    exact (Option.some.inj (hx.symm.trans h)).symm
                | some code =>
                    by_cases hcode : code < 400
                    · right; right
                      refine ⟨code, rfl, hcode, ?_⟩
                      have hx : run_cycle env cfg k fuel =
                          some ([Event.cycleBegin, Event.readCloudPin, Event.measure,
                                 Event.render true, Event.sleepSec 10, Event.displayPoweroff]
                                  ++ tw ++ [Event.httpReport] ++ show_success
                                  ++ [Event.cycleEnd]) := by
                        simp [run_cycle, run_cycle_try, get_temperature_and_humidity, hm,
                          display_temperature_and_humidity, hscan, hs, hconn, log_data, hr,
                          hcode]
                      exact (Option.some.inj (hx.symm.trans h)).symm
                    · right; left
                      refine ⟨code, rfl, Nat.le_of_not_lt hcode, ?_⟩
                      have hx : run_cycle env cfg k fuel =
                          some ([Event.cycleBegin, Event.readCloudPin, Event.measure,
                                 Event.render true, Event.sleepSec 10, Event.displayPoweroff]
                                  ++ tw ++ [Event.httpReport] ++ show_error
                                  ++ [Event.cycleEnd]) := by
                        simp [run_cycle, run_cycle_try, get_temperature_and_humidity, hm,
                          display_temperature_and_humidity, hscan, hs, hconn, log_data, hr,
                          hcode]
                      exact (Option.some.inj (hx.symm.trans h)).symm
      · right; left
        refine ⟨by simp [hm], hscan, ?_⟩
        have hx : run_cycle env cfg k fuel =
            some (Event.cycleBegin :: Event.readCloudPin :: Event.measure ::
                    show_error ++ [Event.cycleEnd]) := by
          simp [run_cycle, run_cycle_try, get_temperature_and_humidity, hm,
            display_temperature_and_humidity, hscan]
        have := Option.some.inj (hx.symm.trans h)
        simp [← this]

theorem last_concat (l : List Event) (e : Event) : (l ++ [e]).getLast? = some e := by
  simp

/-- C1, counterexample: in the cycle in which acquisition succeeds, the display
succeeds and cloud reporting is disabled (world `env0`), `run_cycle` completes
but emits no slow blink at all — neither the claimed single slow success blink
(`blink 50 1`) nor an error blink — refuting "exactly one StatusFeedback signal
is emitted and a success cycle with cloud disabled emits one slow success
blink". -/
theorem C1_counterexample :
    (run_cycle env0 cfg0 0 5).isSome = true ∧
    countE (Event.blink 50 1) ((run_cycle env0 cfg0 0 5).getD []) = 0 ∧
    countE (Event.blink 50 3) ((run_cycle env0 cfg0 0 5).getD []) = 0 := by
  refine ⟨rfl, rfl, rfl⟩

/-- C1, amended: every completed cycle emits at most one slow StatusFeedback
signal: exactly one slow error pattern (`blink 50 3`) when some gated step
failed and none otherwise, and exactly one slow success pattern (`blink 50 1`)
when all steps succeeded and cloud reporting was read enabled; a successful
cycle with cloud reporting disabled emits no slow signal. -/
theorem C1_slow_signal_characterisation (env : Env) (cfg : Config) (k fuel : Nat)
    (tr : List Event) (h : run_cycle env cfg k fuel = some tr) :
    countE (Event.blink 50 3) tr = (if stepFailureB env k then 1 else 0) ∧
    countE (Event.blink 50 1) tr =
      (if stepFailureB env k = false ∧ should_send_data_to_cloud env k = true
       then 1 else 0) := by
  rcases run_cycle_shape env cfg k fuel tr h with
    ⟨hm, rfl⟩ | ⟨hm, hscan, rfl⟩ | ⟨hm, hscan, hs, rfl⟩ | ⟨tw, hm, hscan, hs, hconn, hcase⟩
  · have hf : stepFailureB env k = true := by simp [stepFailureB, hm]
    simp [hf, countE_append, countE, show_error]
  · have hf : stepFailureB env k = true := by simp [stepFailureB, hscan]
    simp [hf, countE_append, countE, show_error]
  · obtain ⟨v, hv⟩ := Option.ne_none_iff_exists'.mp hm
    have hf : stepFailureB env k = false := by simp [stepFailureB, hv, hscan, hs]
    simp [hf, hs, countE_append, countE]
  · have hz3 : countE (Event.blink 50 3) tw = 0 :=
      connect_wifi_countE env fuel tw _ hconn (by decide) (by decide) (by decide) (by decide)
    have hz1 : countE (Event.blink 50 1) tw = 0 :=
      connect_wifi_countE env fuel tw _ hconn (by decide) (by decide) (by decide) (by decide)
    obtain ⟨v, hv⟩ := Option.ne_none_iff_exists'.mp hm
    rcases hcase with ⟨hr, rfl⟩ | ⟨c, hr, hc, rfl⟩ | ⟨c, hr, hc, rfl⟩
    · have hf : stepFailureB env k = true := by simp [stepFailureB, hs, hr]
      simp [hf, countE_append, countE, show_error, hz3, hz1]
    · have hf : stepFailureB env k = true := by simp [stepFailureB, hs, hr, hc]
      simp [hf, countE_append, countE, show_error, hz3, hz1]
    · have hf : stepFailureB env k = false := by
        simp [stepFailureB, hv, hscan, hs, hr, Nat.not_le.mpr hc]
      simp [hf, hs, countE_append, countE, show_success, hz3, hz1]

/-- C1, witness: the amended theorem applied to the concrete cloud-disabled
success cycle of `env0`. -/
theorem C1_witness :
    countE (Event.blink 50 3)
        [Event.cycleBegin, Event.readCloudPin, Event.measure, Event.render false,
         Event.sleepSec 10, Event.displayPoweroff, Event.cycleEnd] =
      (if stepFailureB env0 0 then 1 else 0) ∧
    countE (Event.blink 50 1)
        [Event.cycleBegin, Event.readCloudPin, Event.measure, Event.render false,
         Event.sleepSec 10, Event.displayPoweroff, Event.cycleEnd] =
      (if stepFailureB env0 0 = false ∧ should_send_data_to_cloud env0 0 = true
       then 1 else 0) :=
  C1_slow_signal_characterisation env0 cfg0 0 5 _ rfl

/-- C2: every failure of a gated step is caught at the single per-cycle
boundary and answered by the slow error pattern of 3 repetitions, the cycle
still runs to its end marker (no exception escapes `run_cycle`), and an
acquisition failure skips the remaining steps: no render and no report occurs
in that trace. -/
theorem C2_failure_boundary (env : Env) (cfg : Config) (k fuel : Nat) (tr : List Event)
    (h : run_cycle env cfg k fuel = some tr) :
    tr.getLast? = some Event.cycleEnd ∧
    (stepFailureB env k = true → countE (Event.blink 50 3) tr = 1) ∧
    (env.measureResult = none →
       tr = [Event.cycleBegin, Event.readCloudPin] ++ show_error ++ [Event.cycleEnd] ∧
       renderEvents tr = [] ∧ countE Event.httpReport tr = 0) := by
  rcases run_cycle_shape env cfg k fuel tr h with
    ⟨hm, rfl⟩ | ⟨hm, hscan, rfl⟩ | ⟨hm, hscan, hs, rfl⟩ | ⟨tw, hm, hscan, hs, hconn, hcase⟩
  · exact ⟨by decide, fun _ => by decide, fun _ => ⟨rfl, by decide, by decide⟩⟩
  · exact ⟨by decide, fun _ => by decide, fun h0 => absurd h0 hm⟩
  · refine ⟨by decide, fun hfail => ?_, fun h0 => absurd h0 hm⟩
    obtain ⟨v, hv⟩ := Option.ne_none_iff_exists'.mp hm
    have hf : stepFailureB env k = false := by simp [stepFailureB, hv, hscan, hs]
    rw [hf] at hfail
    cases hfail
  · have hz3 : countE (Event.blink 50 3) tw = 0 :=
      connect_wifi_countE env fuel tw _ hconn (by decide) (by decide) (by decide) (by decide)
    obtain ⟨v, hv⟩ := Option.ne_none_iff_exists'.mp hm
    rcases hcase with ⟨hr, rfl⟩ | ⟨c, hr, hc, rfl⟩ | ⟨c, hr, hc, rfl⟩ <;>
      refine ⟨last_concat _ _, fun hfail => ?_, fun h0 => absurd h0 hm⟩
    · simp [countE_append, countE, show_error, hz3]
    · simp [countE_append, countE, show_error, hz3]
    · have hf : stepFailureB env k = false := by
        simp [stepFailureB, hv, hscan, hs, hr, Nat.not_le.mpr hc]
      rw [hf] at hfail
      cases hfail

/-- C2, witness: the boundary theorem applied to the concrete
acquisition-failure world `envMeasureFail`. -/
theorem C2_witness :
    ([Event.cycleBegin, Event.readCloudPin, Event.blink 50 3,
        Event.cycleEnd] : List Event).getLast? = some Event.cycleEnd ∧
    (stepFailureB envMeasureFail 0 = true →
       countE (Event.blink 50 3)
         [Event.cycleBegin, Event.readCloudPin, Event.blink 50 3, Event.cycleEnd] = 1) ∧
    (envMeasureFail.measureResult = none →
       [Event.cycleBegin, Event.readCloudPin, Event.blink 50 3, Event.cycleEnd] =
         [Event.cycleBegin, Event.readCloudPin] ++ show_error ++ [Event.cycleEnd] ∧
       renderEvents [Event.cycleBegin, Event.readCloudPin, Event.blink 50 3,
         Event.cycleEnd] = [] ∧
       countE Event.httpReport
         [Event.cycleBegin, Event.readCloudPin, Event.blink 50 3, Event.cycleEnd] = 0) :=
  C2_failure_boundary envMeasureFail cfg0 0 5 _ rfl

/-- C3: in every completed cycle, each render event uses the plain built-in
font exactly when the cloud toggle was read enabled (never the inverse), and
whenever acquisition succeeds and the display answers, a render with that
coupled style does occur. -/
theorem C3_style_coupling (env : Env) (cfg : Config) (k fuel : Nat) (tr : List Event)
    (h : run_cycle env cfg k fuel = some tr) :
    (∀ plain, Event.render plain ∈ tr → plain = should_send_data_to_cloud env k) ∧
    (env.measureResult ≠ none → (60 : Nat) ∈ env.i2cScan →
       Event.render (should_send_data_to_cloud env k) ∈ tr) := by
  rcases run_cycle_shape env cfg k fuel tr h with
    ⟨hm, rfl⟩ | ⟨hm, hscan, rfl⟩ | ⟨hm, hscan, hs, rfl⟩ | ⟨tw, hm, hscan, hs, hconn, hcase⟩
  · exact ⟨fun plain hp => by simp [show_error] at hp,
      fun h0 _ => absurd hm (by simp [h0])⟩
  · exact ⟨fun plain hp => by simp [show_error] at hp, fun _ h1 => absurd h1 hscan⟩
  · refine ⟨fun plain hp => ?_, fun _ _ => ?_⟩
    · rw [hs]
      simp [show_error] at hp
      exact hp
    · rw [hs]
      simp
  · have hmem : ∀ plain, Event.render plain ∉ tw := by
      intro plain hp
      rcases connect_wifi_mem env fuel tw hconn _ hp with h1 | h1 | h1 | h1 <;> cases h1
    rcases hcase with ⟨hr, rfl⟩ | ⟨c, hr, hc, rfl⟩ | ⟨c, hr, hc, rfl⟩ <;>
      refine ⟨fun plain hp => ?_, fun _ _ => ?_⟩ <;>
      [skip; (rw [hs]; simp); skip; (rw [hs]; simp); skip; (rw [hs]; simp)] <;>
      · rw [hs]
        simp [show_error, show_success] at hp
        rcases hp with hp | hp
        · exact hp
        · exact absurd hp (hmem plain)

/-- C3, witness: the coupling theorem applied to the concrete cloud-disabled
world `env0`, whose cycle renders in the rich style. -/
theorem C3_witness :
    (∀ plain,
       Event.render plain ∈
         [Event.cycleBegin, Event.readCloudPin, Event.measure, Event.render false,
          Event.sleepSec 10, Event.displayPoweroff, Event.cycleEnd] →
       plain = should_send_data_to_cloud env0 0) ∧
    (env0.measureResult ≠ none → (60 : Nat) ∈ env0.i2cScan →
       Event.render (should_send_data_to_cloud env0 0) ∈
         [Event.cycleBegin, Event.readCloudPin, Event.measure, Event.render false,
          Event.sleepSec 10, Event.displayPoweroff, Event.cycleEnd]) :=
  C3_style_coupling env0 cfg0 0 5 _ rfl

/-- C4: the cloud toggle is read exactly once per completed cycle, and the
whole cycle depends on the toggle stream only through that single read: any
stream agreeing at the read index produces the identical cycle. -/
theorem C4_single_config_read (env : Env) (cfg : Config) (k fuel : Nat) :
    (∀ tr, run_cycle env cfg k fuel = some tr → countE Event.readCloudPin tr = 1) ∧
    (∀ f : Nat → Nat, f k = env.cloudPinVal k →
       run_cycle { env with cloudPinVal := f } cfg k fuel = run_cycle env cfg k fuel) := by
  constructor
  · intro tr h
    rcases run_cycle_shape env cfg k fuel tr h with
      ⟨hm, rfl⟩ | ⟨hm, hscan, rfl⟩ | ⟨hm, hscan, hs, rfl⟩ | ⟨tw, hm, hscan, hs, hconn, hcase⟩
    · decide
    · decide
    · decide
    · have hz : countE Event.readCloudPin tw = 0 :=
        connect_wifi_countE env fuel tw _ hconn (by decide) (by decide) (by decide) (by decide)
      rcases hcase with ⟨hr, rfl⟩ | ⟨c, hr, hc, rfl⟩ | ⟨c, hr, hc, rfl⟩ <;>
        simp [countE_append, countE, show_error, show_success, hz]
  · intro f hf
    simp [run_cycle, run_cycle_try, should_send_data_to_cloud, read_boolean_pin, hf,
      get_temperature_and_humidity, display_temperature_and_humidity, connect_wifi,
      wifi_wait, log_data]

/-- C4, witness: applied to `env0` and a toggle stream that flips after the
first read; the cycle is unchanged. -/
theorem C4_witness :
    countE Event.readCloudPin
      [Event.cycleBegin, Event.readCloudPin, Event.measure, Event.render false,
       Event.sleepSec 10, Event.displayPoweroff, Event.cycleEnd] = 1 ∧
    run_cycle { env0 with cloudPinVal := fun n => if n = 0 then 1 else 0 } cfg0 0 5 =
      run_cycle env0 cfg0 0 5 :=
  ⟨(C4_single_config_read env0 cfg0 0 5).1 _ rfl,
   (C4_single_config_read env0 cfg0 0 5).2 (fun n => if n = 0 then 1 else 0) rfl⟩

/-- A trace of `connect_wifi` contains no scheduler events and no cycle
markers, so any `alarmEvents`-style filter over it is empty. -/
theorem connect_wifi_filter_empty (env : Env) (fuel : Nat) (tw : List Event)
    (h : connect_wifi env fuel = some tw) (p : Event → Bool)
    (h1 : p (Event.blink 5 1) = false) (h2 : p (Event.sleepSec 1) = false)
    (h3 : p Event.wifiActivate = false) (h4 : p (Event.blink 5 3) = false) :
    tw.filter p = [] := by
  rw [List.filter_eq_nil_iff]
  intro e he
  rcases connect_wifi_mem env fuel tw h e he with rfl | rfl | rfl | rfl <;>
    simp [h1, h2, h3, h4]

/-- A completed cycle contains exactly one begin and one end marker and no
scheduler event: no debug-pin read, no wake-alarm programming, no deep-sleep
entry. -/
theorem run_cycle_scheduler_free (env : Env) (cfg : Config) (k fuel : Nat) (tr : List Event)
    (h : run_cycle env cfg k fuel = some tr) :
    countE Event.cycleBegin tr = 1 ∧ countE Event.cycleEnd tr = 1 ∧
    countE Event.readDebugPin tr = 0 ∧ countE Event.deepSleepEnter tr = 0 ∧
    alarmEvents tr = [] := by
  rcases run_cycle_shape env cfg k fuel tr h with
    ⟨hm, rfl⟩ | ⟨hm, hscan, rfl⟩ | ⟨hm, hscan, hs, rfl⟩ | ⟨tw, hm, hscan, hs, hconn, hcase⟩
  · exact ⟨by decide, by decide, by decide, by decide, by decide⟩
  · exact ⟨by decide, by decide, by decide, by decide, by decide⟩
  · exact ⟨by decide, by decide, by decide, by decide, by decide⟩
  · have hcnt : ∀ e : Event, e ≠ Event.blink 5 1 → e ≠ Event.sleepSec 1 →
        e ≠ Event.wifiActivate → e ≠ Event.blink 5 3 → countE e tw = 0 :=
      fun e a b c d => connect_wifi_countE env fuel tw e hconn a b c d
    have halarm : tw.filter
        (fun e => match e with | Event.rtcAlarm _ => true | _ => false) = [] :=
      connect_wifi_filter_empty env fuel tw hconn _ rfl rfl rfl rfl
    have c1 := hcnt Event.cycleBegin (by decide) (by decide) (by decide) (by decide)
    have c2 := hcnt Event.cycleEnd (by decide) (by decide) (by decide) (by decide)
    have c3 := hcnt Event.readDebugPin (by decide) (by decide) (by decide) (by decide)
    have c4 := hcnt Event.deepSleepEnter (by decide) (by decide) (by decide) (by decide)
    rcases hcase with ⟨hr, rfl⟩ | ⟨c, hr, hc, rfl⟩ | ⟨c, hr, hc, rfl⟩ <;>
      refine ⟨?_, ?_, ?_, ?_, ?_⟩ <;>
      simp [countE_append, countE, show_error, show_success, alarmEvents,
        List.filter_append, halarm, c1, c2, c3, c4]

/-- C5: in DeepSleep mode exactly one cycle runs; when the debug override is
then asserted no wake alarm is programmed and the machine halts right after
the debug read; when it is not, the wake alarm is programmed for exactly
`LOG_INTERVAL` seconds (the source passes `LOG_INTERVAL * 1000` ms) and the
trace ends by entering deep sleep. -/
theorem C5_deepsleep_mode (env : Env) (cfg : Config) (wfuel lfuel : Nat) (tr : List Event)
    (hd : cfg.DEEP_SLEEP = true) (h : run env cfg wfuel lfuel = some tr) :
    countE Event.cycleBegin tr = 1 ∧
    (is_debug env 0 = true →
       alarmEvents tr = [] ∧ countE Event.deepSleepEnter tr = 0 ∧
       tr.getLast? = some Event.readDebugPin) ∧
    (is_debug env 0 = false →
       alarmEvents tr = [Event.rtcAlarm (cfg.LOG_INTERVAL * 1000)] ∧
       tr.getLast? = some Event.deepSleepEnter) := by
  simp only [run, hd, if_true] at h
  cases hc : run_cycle env cfg 0 wfuel with
  | none => rw [hc] at h; cases h
  | some t0 =>
      rw [hc, Option.map_some', Option.some.injEq] at h
      subst h
      obtain ⟨hb, he, hdbg, hds, hal⟩ := run_cycle_scheduler_free env cfg 0 wfuel t0 hc
      have hal' : t0.filter
          (fun e => match e with | Event.rtcAlarm _ => true | _ => false) = [] := hal
      refine ⟨?_, fun hdb => ?_, fun hdb => ?_⟩
      · cases hdb0 : is_debug env 0 <;>
          simp [hdb0, countE_append, countE, deepsleep, hb]
      · simp only [hdb, if_true]
        refine ⟨?_, ?_, ?_⟩
        · simp [alarmEvents, List.filter_append, hal']
        · simp [countE_append, countE, hds]
        · exact last_concat t0 Event.readDebugPin
      · simp only [hdb, Bool.false_eq_true, if_false]
        refine ⟨?_, ?_⟩
        · simp [alarmEvents, List.filter_append, hal', deepsleep]
        · rw [List.getLast?_append_of_ne_nil _ (by simp)]
          simp [deepsleep]

/-- C5, witness: the DeepSleep theorem applied to the concrete debug-off world
`env0` with `DEEP_SLEEP = True`: one cycle, then the 10000 ms alarm and the
deep-sleep entry. -/
theorem C5_witness :
    countE Event.cycleBegin
      [Event.cycleBegin, Event.readCloudPin, Event.measure, Event.render false,
       Event.sleepSec 10, Event.displayPoweroff, Event.cycleEnd, Event.readDebugPin,
       Event.rtcAlarm 10000, Event.deepSleepEnter] = 1 ∧
    (is_debug env0 0 = true →
       alarmEvents
         [Event.cycleBegin, Event.readCloudPin, Event.measure, Event.render false,
          Event.sleepSec 10, Event.displayPoweroff, Event.cycleEnd, Event.readDebugPin,
          Event.rtcAlarm 10000, Event.deepSleepEnter] = [] ∧
       countE Event.deepSleepEnter
         [Event.cycleBegin, Event.readCloudPin, Event.measure, Event.render false,
          Event.sleepSec 10, Event.displayPoweroff, Event.cycleEnd, Event.readDebugPin,
          Event.rtcAlarm 10000, Event.deepSleepEnter] = 0 ∧
       ([Event.cycleBegin, Event.readCloudPin, Event.measure, Event.render false,
         Event.sleepSec 10, Event.displayPoweroff, Event.cycleEnd, Event.readDebugPin,
         Event.rtcAlarm 10000, Event.deepSleepEnter] : List Event).getLast? =
         some Event.readDebugPin) ∧
    (is_debug env0 0 = false →
       alarmEvents
         [Event.cycleBegin, Event.readCloudPin, Event.measure, Event.render false,
          Event.sleepSec 10, Event.displayPoweroff, Event.cycleEnd, Event.readDebugPin,
          Event.rtcAlarm 10000, Event.deepSleepEnter] =
         [Event.rtcAlarm (cfgDS.LOG_INTERVAL * 1000)] ∧
       ([Event.cycleBegin, Event.readCloudPin, Event.measure, Event.render false,
         Event.sleepSec 10, Event.displayPoweroff, Event.cycleEnd, Event.readDebugPin,
         Event.rtcAlarm 10000, Event.deepSleepEnter] : List Event).getLast? =
         some Event.deepSleepEnter) :=
  C5_deepsleep_mode env0 cfgDS 5 5 _ rfl rfl

/-- Unrolling of the continuous loop: when the first `n` boundary checks from
index `k` observe the debug override off and the `n`-th observes it on, and the
fuel covers all `n + 1` checks, the loop produces exactly the `n`-iteration
trace shape. -/
theorem run_loop_eq_loopTraceUpTo (env : Env) (cfg : Config) (wfuel : Nat) :
    ∀ n k lfuel, (∀ j, j < n → is_debug env (k + j) = false) →
      is_debug env (k + n) = true → n < lfuel →
      run_loop env cfg wfuel k lfuel = loopTraceUpTo env cfg wfuel k n := by
  intro n
  induction n with
  | zero =>
      intro k lfuel h0 h1 h2
      cases lfuel with
      | zero => omega
      | succ m =>
          rw [Nat.add_zero] at h1
          simp only [run_loop, loopTraceUpTo, h1, if_true]
  | succ n ih =>
      intro k lfuel h0 h1 h2
      cases lfuel with
      | zero => omega
      | succ m =>
          have hdk : is_debug env k = false := by
            have := h0 0 (Nat.succ_pos n)
            rwa [Nat.add_zero] at this
          have hrec : run_loop env cfg wfuel (k + 1) m = loopTraceUpTo env cfg wfuel (k + 1) n := by
            apply ih
            · intro j hj
              have := h0 (j + 1) (by omega)
              rwa [show k + (j + 1) = k + 1 + j by omega] at this
            · have := h1
              rwa [show k + (n + 1) = k + 1 + n by omega] at this
            · omega
          simp only [run_loop, loopTraceUpTo, hdk, Bool.false_eq_true, if_false]
          cases hcyc : run_cycle env cfg k wfuel with
          | none => rfl
          | some t =>
              rw [hrec]
              cases hrest : loopTraceUpTo env cfg wfuel (k + 1) n with
              | none => rfl
              | some rest => rfl

/-- While the debug override is never observed asserted, no amount of fuel
makes the continuous loop terminate. -/
theorem run_loop_none (env : Env) (cfg : Config) (wfuel : Nat)
    (hdbg : ∀ j, is_debug env j = false) :
    ∀ lfuel k, run_loop env cfg wfuel k lfuel = none := by
  intro lfuel
  induction lfuel with
  | zero => intro k; rfl
  | succ m ih =>
      intro k
      simp only [run_loop, hdbg k, Bool.false_eq_true, if_false]
      cases hcyc : run_cycle env cfg k wfuel with
      | none => rfl
      | some t => rw [ih (k + 1)]; rfl

/-- The `n`-iteration loop shape contains exactly `n` cycle-begin and `n`
cycle-end markers (every started cycle completes) and ends with the final
debug-pin read. -/
theorem loopTraceUpTo_counts (env : Env) (cfg : Config) (wfuel : Nat) :
    ∀ n k tr, loopTraceUpTo env cfg wfuel k n = some tr →
      countE Event.cycleBegin tr = n ∧ countE Event.cycleEnd tr = n ∧
      tr.getLast? = some Event.readDebugPin := by
  intro n
  induction n with
  | zero =>
      intro k tr h
      simp only [loopTraceUpTo, Option.some.injEq] at h
      subst h
      exact ⟨rfl, rfl, rfl⟩
  | succ n ih =>
      intro k tr h
      simp only [loopTraceUpTo] at h
      cases hcyc : run_cycle env cfg k wfuel with
      | none => rw [hcyc] at h; cases h
      | some t =>
          rw [hcyc] at h
          cases hrest : loopTraceUpTo env cfg wfuel (k + 1) n with
          | none => rw [hrest] at h; cases h
          | some rest =>
              rw [hrest] at h
              cases h
              obtain ⟨hb, he, -, -, -⟩ := run_cycle_scheduler_free env cfg k wfuel t hcyc
              obtain ⟨ihb, ihe, ihl⟩ := ih (k + 1) rest hrest
              have hne : rest ≠ [] := by
                intro hh
                rw [hh] at ihl
                cases ihl
              refine ⟨?_, ?_, ?_⟩
              · rw [countE_cons, countE_append, countE_cons, hb, ihb]
                simp
                omega
              · rw [countE_cons, countE_append, countE_cons, he, ihe]
                simp
                omega
              · rw [show Event.readDebugPin :: (t ++ Event.sleepSec cfg.LOG_INTERVAL :: rest) =
                      (Event.readDebugPin :: t) ++
                        ([Event.sleepSec cfg.LOG_INTERVAL] ++ rest) by simp]
                rw [List.getLast?_append_of_ne_nil _ (by simp [hne])]
                rw [List.getLast?_append_of_ne_nil _ hne]
                exact ihl

/-- C6: in ContinuousLoop mode the debug override is re-checked before each
iteration.  If the first `n` checks observe it off and the `n`-th observes it
on, the run is exactly `n` complete iterations (cycle plus a blocking
`LOG_INTERVAL`-second sleep, each preceded by its debug read) followed by the
final debug read: `n` cycle begins, `n` cycle ends (never terminating
mid-cycle), ending at the boundary check.  While the override is never
asserted, the loop never terminates (no fuel completes it). -/
theorem C6_continuous_loop (env : Env) (cfg : Config) (wfuel : Nat)
    (hd : cfg.DEEP_SLEEP = false) :
    (∀ n lfuel, (∀ j, j < n → is_debug env j = false) → is_debug env n = true →
       n < lfuel →
       run env cfg wfuel lfuel = loopTraceUpTo env cfg wfuel 0 n ∧
       (∀ tr, run env cfg wfuel lfuel = some tr →
          countE Event.cycleBegin tr = n ∧ countE Event.cycleEnd tr = n ∧
          tr.getLast? = some Event.readDebugPin)) ∧
    ((∀ j, is_debug env j = false) → ∀ lfuel, run env cfg wfuel lfuel = none) := by
  have hrun : ∀ lfuel, run env cfg wfuel lfuel = run_loop env cfg wfuel 0 lfuel := by
    intro lfuel
    simp [run, hd]
  constructor
  · intro n lfuel h0 h1 h2
    have he : run_loop env cfg wfuel 0 lfuel = loopTraceUpTo env cfg wfuel 0 n := by
      apply run_loop_eq_loopTraceUpTo
      · intro j hj
        rw [Nat.zero_add]
        exact h0 j hj
      · rw [Nat.zero_add]
        exact h1
      · exact h2
    refine ⟨(hrun lfuel).trans he, fun tr htr => ?_⟩
    apply loopTraceUpTo_counts env cfg wfuel n 0 tr
    rw [← he, ← hrun lfuel]
    exact htr
  · intro hdbg lfuel
    rw [hrun lfuel]
    exact run_loop_none env cfg wfuel hdbg lfuel 0

/-- C6, witness: with the override asserting at the third check, the run is
exactly the two-iteration shape; with it never asserting (`env0`), no fuel
terminates the loop. -/
theorem C6_witness :
    run envLoop cfg0 5 3 = loopTraceUpTo envLoop cfg0 5 0 2 ∧
    run env0 cfg0 5 4 = none :=
  ⟨((C6_continuous_loop envLoop cfg0 5 rfl).1 2 3
      (by intro j hj; interval_cases j <;> rfl) rfl (by omega)).1,
   (C6_continuous_loop env0 cfg0 5 rfl).2 (fun j => rfl) 4⟩

theorem countPin_true_loop (d : Nat) :
    ∀ n, countPin (PinEvent.set true) (blink_led_loop d n) = n := by
  intro n
  induction n with
  | zero => rfl
  | succ n ih => simp [blink_led_loop, countPin, ih]; omega

theorem countPin_false_loop (d : Nat) :
    ∀ n, countPin (PinEvent.set false) (blink_led_loop d n) = n := by
  intro n
  induction n with
  | zero => rfl
  | succ n ih => simp [blink_led_loop, countPin, ih]; omega

theorem countPin_append (e : PinEvent) (a b : List PinEvent) :
    countPin e (a ++ b) = countPin e a + countPin e b := by
  induction a with
  | nil => simp [countPin]
  | cons x a ih => simp [countPin, ih]; ring

theorem wait_filter_loop (d : Nat) :
    ∀ n, (blink_led_loop d n).filter
        (fun e => match e with | PinEvent.wait _ => true | _ => false) =
      List.replicate (2 * n) (PinEvent.wait d) := by
  intro n
  induction n with
  | zero => rfl
  | succ n ih =>
      rw [show 2 * (n + 1) = 2 + 2 * n by ring, List.replicate_add]
      simp [blink_led_loop, List.filter_append, ih, List.replicate]

/-- C7: for every delay and every repetition count (zero included), the blink
primitive drives the pin high then low exactly `times` times, every hold
between two pin writes lasts the same `delay` — one half of the full `2·delay`
blink period — and the final pin command leaves the pin in the steady
`led_top.on()` (electrically high) state, which under the board's active-low
LED wiring is the indicator's off-indication. -/
theorem C7_blink_primitive (d n : Nat) :
    countPin (PinEvent.set true) (blink_led d n) = n + 1 ∧
    countPin (PinEvent.set false) (blink_led d n) = n ∧
    (blink_led d n).getLast? = some (PinEvent.set true) ∧
    (blink_led d n).filter
        (fun e => match e with | PinEvent.wait _ => true | _ => false) =
      List.replicate (2 * n) (PinEvent.wait d) := by
  refine ⟨?_, ?_, ?_, ?_⟩
  · rw [blink_led, countPin_append, countPin_true_loop]
    simp [countPin]
  · rw [blink_led, countPin_append, countPin_false_loop]
    simp [countPin]
  · rw [blink_led]
    simp
  · rw [blink_led, List.filter_append, wait_filter_loop]
    simp

/-- C8: a report completes as success exactly when the HTTP status code is
below 400; a status of 400 or above makes `log_data` raise, and such a cycle
is indistinguishable — same trace, same slow error signal, same outcome —
from one whose transport itself failed. -/
theorem C8_status_threshold (env : Env) (cfg : Config) (k fuel : Nat) (c : Nat) :
    ((log_data env).err = none ↔ ∃ c0, env.httpResponse = some c0 ∧ c0 < 400) ∧
    (400 ≤ c →
       run_cycle { env with httpResponse := some c } cfg k fuel =
         run_cycle { env with httpResponse := none } cfg k fuel) := by
  constructor
  · rw [log_data]
    cases hr : env.httpResponse with
    | none => simp
    | some c0 =>
        by_cases hc : c0 < 400
        · simp [hc]
        · simp [hc]
  · intro hc
    have egt1 : get_temperature_and_humidity { env with httpResponse := some c } cfg =
        get_temperature_and_humidity env cfg := rfl
    have egt2 : get_temperature_and_humidity { env with httpResponse := none } cfg =
        get_temperature_and_humidity env cfg := rfl
    have esd1 : should_send_data_to_cloud { env with httpResponse := some c } k =
        should_send_data_to_cloud env k := rfl
    have esd2 : should_send_data_to_cloud { env with httpResponse := none } k =
        should_send_data_to_cloud env k := rfl
    have edis1 : ∀ t hu b,
        display_temperature_and_humidity { env with httpResponse := some c } t hu b =
          display_temperature_and_humidity env t hu b := fun _ _ _ => rfl
    have edis2 : ∀ t hu b,
        display_temperature_and_humidity { env with httpResponse := none } t hu b =
          display_temperature_and_humidity env t hu b := fun _ _ _ => rfl
    have ecw1 : connect_wifi { env with httpResponse := some c } fuel =
        connect_wifi env fuel := rfl
    have ecw2 : connect_wifi { env with httpResponse := none } fuel =
        connect_wifi env fuel := rfl
    have el1 : log_data { env with httpResponse := some c } =
        { trace := [Event.httpReport], err := some "Upload failed!" } := by
      simp [log_data, Nat.not_lt.mpr hc]
    have el2 : log_data { env with httpResponse := none } =
        { trace := [Event.httpReport], err := some "transport error" } := rfl
    simp only [run_cycle, run_cycle_try, egt1, egt2, esd1, esd2, edis1, edis2, ecw1, ecw2,
      el1, el2]
    cases hm : env.measureResult with
    | none => simp [get_temperature_and_humidity, hm]
    | some th =>
        simp only [get_temperature_and_humidity, hm, Option.map_some']
        split
        all_goals try rfl
        all_goals split
        all_goals try rfl
        all_goals split
        all_goals rfl

/-- C8, witness: with a 500 response the cycle equals the transport-failure
cycle, and `log_data` on `env0` (status 200) reports success. -/
theorem C8_witness :
    ((log_data env0).err = none ↔ ∃ c0, env0.httpResponse = some c0 ∧ c0 < 400) ∧
    run_cycle { env0 with httpResponse := some 500 } cfg0 0 5 =
      run_cycle { env0 with httpResponse := none } cfg0 0 5 :=
  ⟨(C8_status_threshold env0 cfg0 0 5 500).1,
   (C8_status_threshold env0 cfg0 0 5 500).2 (by omega)⟩

/-- The wifi wait loop polling from index `k`: `n` consecutive negative polls
followed by a positive one produce exactly `n` blink-and-sleep pairs. -/
theorem wifi_wait_trace (c : Nat → Bool) :
    ∀ n k fuel, (∀ j, j < n → c (k + j) = false) → c (k + n) = true → n < fuel →
      wifi_wait c k fuel = some (waitBlinks n) := by
  intro n
  induction n with
  | zero =>
      intro k fuel h0 h1 h2
      cases fuel with
      | zero => omega
      | succ m =>
          rw [Nat.add_zero] at h1
          simp only [wifi_wait, h1, if_true, waitBlinks]
  | succ n ih =>
      intro k fuel h0 h1 h2
      cases fuel with
      | zero => omega
      | succ m =>
          have hck : c k = false := by
            have := h0 0 (Nat.succ_pos n)
            rwa [Nat.add_zero] at this
          have ha : ∀ j, j < n → c (k + 1 + j) = false := by
            intro j hj
            have := h0 (j + 1) (by omega)
            rwa [show k + (j + 1) = k + 1 + j by omega] at this
          have hb : c (k + 1 + n) = true := by
            have := h1
            rwa [show k + (n + 1) = k + 1 + n by omega] at this
          simp only [wifi_wait, hck, Bool.false_eq_true, if_false]
          rw [ih (k + 1) m ha hb (by omega)]
          simp [waitBlinks, show_wifi_connect_wait]

/-- C9: when the station interface is not yet associated, connectivity is a
polling wait emitting exactly one quick progress blink (then a one-second
sleep) per second of waiting, and once the `n+1`-th poll observes association
the quick success pattern of 3 repetitions follows the `n` waiting blinks. -/
theorem C9_connect_progress (env : Env) (fuel n : Nat)
    (h0 : ∀ j, j ≤ n → env.staConnected j = false)
    (h1 : env.staConnected (n + 1) = true) (hf : n < fuel) :
    connect_wifi env fuel =
      some (Event.wifiActivate :: (waitBlinks n ++ show_wifi_connect_success)) := by
  rw [connect_wifi, h0 0 (Nat.zero_le n)]
  simp only [Bool.false_eq_true, if_false]
  have ha : ∀ j, j < n → env.staConnected (1 + j) = false := by
    intro j hj
    have := h0 (j + 1) (by omega)
    rwa [show j + 1 = 1 + j by omega] at this
  have hb : env.staConnected (1 + n) = true := by
    rwa [show n + 1 = 1 + n by omega] at h1
  rw [wifi_wait_trace env.staConnected n 1 fuel ha hb hf]
  rfl

/-- C9, witness: association at the fifth poll (3 polling seconds of waiting)
produces exactly 3 quick waiting blinks before the quick 3-repetition success
pattern. -/
theorem C9_witness :
    connect_wifi envWifi 9 =
      some (Event.wifiActivate :: (waitBlinks 3 ++ show_wifi_connect_success)) :=
  C9_connect_progress envWifi 9 3 (by intro j hj; interval_cases j <;> rfl) rfl (by omega)

/-- C10: whenever acquisition succeeds the display step always runs — no
toggle gates it: if the display answers on the bus the trace renders and holds
the display for 10 seconds before powering it off (in that order), and if the
display is absent every such cycle emits the slow error signal and never
reports to the cloud, whatever the cloud toggle says. -/
theorem C10_display_ungated (env : Env) (cfg : Config) (k fuel : Nat) (tr : List Event)
    (tm hu : ℚ) (hm : env.measureResult = some (tm, hu))
    (h : run_cycle env cfg k fuel = some tr) :
    ((60 : Nat) ∈ env.i2cScan →
       ∃ l1 l2, tr = l1 ++ [Event.render (should_send_data_to_cloud env k),
         Event.sleepSec 10, Event.displayPoweroff] ++ l2) ∧
    ((60 : Nat) ∉ env.i2cScan →
       renderEvents tr = [] ∧ countE (Event.blink 50 3) tr = 1 ∧
       countE Event.httpReport tr = 0) := by
  rcases run_cycle_shape env cfg k fuel tr h with
    ⟨hm0, rfl⟩ | ⟨hm0, hscan, rfl⟩ | ⟨hm0, hscan, hs, rfl⟩ | ⟨tw, hm0, hscan, hs, hconn, hcase⟩
  · rw [hm] at hm0
    cases hm0
  · exact ⟨fun h60 => absurd h60 hscan, fun _ => ⟨by decide, by decide, by decide⟩⟩
  · refine ⟨fun _ => ?_, fun h60 => absurd hscan h60⟩
    rw [hs]
    exact ⟨[Event.cycleBegin, Event.readCloudPin, Event.measure], [Event.cycleEnd], by simp⟩
  · rcases hcase with ⟨hr, rfl⟩ | ⟨c, hr, hc, rfl⟩ | ⟨c, hr, hc, rfl⟩
    · refine ⟨fun _ => ?_, fun h60 => absurd hscan h60⟩
      rw [hs]
      exact ⟨[Event.cycleBegin, Event.readCloudPin, Event.measure],
        tw ++ [Event.httpReport] ++ show_error ++ [Event.cycleEnd], by simp⟩
    · refine ⟨fun _ => ?_, fun h60 => absurd hscan h60⟩
      rw [hs]
      exact ⟨[Event.cycleBegin, Event.readCloudPin, Event.measure],
        tw ++ [Event.httpReport] ++ show_error ++ [Event.cycleEnd], by simp⟩
    · refine ⟨fun _ => ?_, fun h60 => absurd hscan h60⟩
      rw [hs]
      exact ⟨[Event.cycleBegin, Event.readCloudPin, Event.measure],
        tw ++ [Event.httpReport] ++ show_success ++ [Event.cycleEnd], by simp⟩

/-- C10, witness: the theorem applied to the concrete cloud-disabled world
`env0`, in which the cycle renders and powers off the display. -/
theorem C10_witness :
    ((60 : Nat) ∈ env0.i2cScan →
       ∃ l1 l2, [Event.cycleBegin, Event.readCloudPin, Event.measure, Event.render false,
           Event.sleepSec 10, Event.displayPoweroff, Event.cycleEnd] =
         l1 ++ [Event.render (should_send_data_to_cloud env0 0),
           Event.sleepSec 10, Event.displayPoweroff] ++ l2) ∧
    ((60 : Nat) ∉ env0.i2cScan →
       renderEvents [Event.cycleBegin, Event.readCloudPin, Event.measure, Event.render false,
         Event.sleepSec 10, Event.displayPoweroff, Event.cycleEnd] = [] ∧
       countE (Event.blink 50 3)
         [Event.cycleBegin, Event.readCloudPin, Event.measure, Event.render false,
          Event.sleepSec 10, Event.displayPoweroff, Event.cycleEnd] = 1 ∧
       countE Event.httpReport
         [Event.cycleBegin, Event.readCloudPin, Event.measure, Event.render false,
          Event.sleepSec 10, Event.displayPoweroff, Event.cycleEnd] = 0) :=
  C10_display_ungated env0 cfg0 0 5 _ 25 50 rfl rfl

end Chapter6
